import Mathlib

set_option autoImplicit false

/-!
Verification of the gsc image-provisioning helper (`df.py`) against its
natural-language specification.  The Python functions under scrutiny are
translated here as executable Lean definitions:

* `get_docker_image`            (df.py lines 53-58)
* `extract_binary_info_from_image_config` (lines 71-114)
* `extract_environment_from_image_config` (lines 117-132)
* `merge_manifests_in_order`    (lines 166-190)
* `handle_redhat_repo_configs`  (lines 192-201, the version-parsing step)

Python strings are Lean `String`s; where a proof walks a string character by
character we work on `String.data` (the underlying `List Char`).  A
`print(...)` followed by `sys.exit(1)` is modelled as an error value carrying
the exit code and the printed message; warnings that do not abort are
collected in an output list.
-/

namespace Gsc

/-- A Docker image configuration blob as used by the script: the fields
`Entrypoint`, `Cmd`, `WorkingDir`, `Env`, `User`, each possibly `null`. -/
structure ImageConfig where
  Entrypoint : Option (List String)
  Cmd : Option (List String)
  WorkingDir : Option String
  Env : Option (List String)
  User : Option String
  deriving DecidableEq

/-- A fatal failure: `print(message)` followed by `sys.exit(code)`. -/
structure FatalExit where
  code : Nat
  message : String
  deriving DecidableEq

/-- The values `extract_binary_info_from_image_config` stores into the Jinja
globals (`binary`, `binary_arguments`, `binary_basename`, `cmd`,
`working_dir`).  In the Python, `binary_arguments` and `cmd` are set to the
empty string in the no-argument cases and the templating step iterates
an empty string exactly like an empty list; both are modelled as `[]`. -/
structure BinaryInfo where
  binary : String
  binary_arguments : List String
  binary_basename : String
  cmd : List String
  working_dir : String
  deriving DecidableEq

/-- `os.path.basename`: everything after the last path separator. -/
def basename (s : String) : String :=
  ⟨(s.data.reverse.takeWhile (· ≠ '/')).reverse⟩

/-- df.py lines 77-81: canonize the working directory — default `/`, and it
always ends in a separator. -/
def canonizeWorkingDir (working_dir : String) : String :=
  if working_dir = "" then "/"
  else if working_dir.data.getLast? ≠ some '/' then working_dir ++ "/"
  else working_dir

/-- Shallow embedding of `extract_binary_info_from_image_config` (df.py lines
71-114).  `config['X'] or []` is `Option.getD` (the Python `or` maps a missing
or falsy field to the default, and the defaults are the falsy values
themselves, so `getD` agrees with it).  The `print` + `sys.exit(1)` on an
empty combined entrypoint is the `FatalExit` error case; the final
`env.globals.update` is the returned record.  `binary.startswith('/')` is
"first character is `/`" and `'/' in binary` is character membership. -/
def extract_binary_info_from_image_config (config : ImageConfig) :
    Except FatalExit BinaryInfo :=
  let entrypoint := config.Entrypoint.getD []
  let num_starting_entrypoint_items := entrypoint.length
  let cmd := config.Cmd.getD []
  let working_dir0 := config.WorkingDir.getD ""
  let working_dir := canonizeWorkingDir working_dir0
  let entrypoint := entrypoint ++ cmd
  if entrypoint = [] then
    .error ⟨1, "Could not find the entrypoint binary to the application image."⟩
  else
    let binary0 := entrypoint.headD ""
    let binary :=
      if binary0.data.head? ≠ some '/' ∧ '/' ∈ binary0.data then
        working_dir ++ binary0
      else binary0
    let last_bin_arg := if 1 < num_starting_entrypoint_items then num_starting_entrypoint_items else 0
    let binary_arguments :=
      if 1 < num_starting_entrypoint_items then (entrypoint.take last_bin_arg).drop 1 else []
    let cmd2 :=
      if last_bin_arg + 1 < entrypoint.length then entrypoint.drop (last_bin_arg + 1) else []
    .ok ⟨binary, binary_arguments, basename binary, cmd2, working_dir⟩

/-- Claim-side definition (C1's wording): the elements of `entrypoint ++ cmd`
that lie strictly after the binary and the entrypoint-contributed fixed
arguments, i.e. after the first `max entrypoint.length 1` elements — exactly
the arguments contributed by `cmd` when `entrypoint` is non-empty, and
`cmd[1:]` when `entrypoint` is empty. -/
def claimedCmdRemainder (entrypoint cmd : List String) : List String :=
  (entrypoint ++ cmd).drop (max entrypoint.length 1)

/-- The two exception classes caught by `get_docker_image`. -/
inductive DockerError where
  | imageNotFound
  | apiError
  deriving DecidableEq

/-- `get_docker_image` (df.py lines 53-58): `docker_socket.images.get` either
returns an image or raises; the `try`/`except` catches `ImageNotFound` and
`APIError` and returns `None`.  The docker socket is modelled as a lookup
function from image names to the outcome of `images.get`; images themselves
are opaque (`Nat` ids). -/
def get_docker_image (images : String → Except DockerError Nat)
    (image_name : String) : Option Nat :=
  match images image_name with
  | .ok docker_image => some docker_image
  | .error .imageNotFound => none
  | .error .apiError => none

/-- The version-parsing step of `handle_redhat_repo_configs` (df.py lines
192-201): `ok none` for a distro not starting with `redhat/` (the function
returns at once, a no-op); otherwise match `^redhat/ubi(\d+)(-minimal)?$` and
return the digit group, or raise `ValueError` (the `error` case, with the
exact message) when the pattern does not match.  The greedy `\d+` followed by
`(-minimal)?$` matches exactly when the text after `redhat/ubi` is a
non-empty digit run followed by nothing or by `-minimal` (distro identifiers
contain no newline, so the `$` anchor is plain end-of-string). -/
def handle_redhat_version (distro : String) : Except String (Option String) :=
  if ¬ ("redhat/".data.isPrefixOf distro.data) then .ok none
  else
    let rest := distro.data.drop ("redhat/ubi".data.length)
    let digits := rest.takeWhile (·.isDigit)
    let after := rest.dropWhile (·.isDigit)
    if "redhat/ubi".data.isPrefixOf distro.data ∧ digits ≠ [] ∧
        (after = [] ∨ after = "-minimal".data) then
      .ok (some ⟨digits⟩)
    else
      .error ("Invalid Red Hat distro format: " ++ distro)

/-- One character of `str.maketrans({'\\': r'\\', '"': r'\"'})`: backslash
and double quote are escaped, every other character maps to itself. -/
def translateChar (c : Char) : List Char :=
  if c = '\\' then ['\\', '\\']
  else if c = '"' then ['\\', '"']
  else [c]

/-- `str.translate` with the table above. -/
def pyTranslate (s : String) : String :=
  ⟨(s.data.map translateChar).flatten⟩

/-- `s.split('=', maxsplit=1)` on a character list: the part before the first
`=` and, when a `=` occurs at all, the part after it (`none` models the
one-element result list, on which index `[1]` raises `IndexError`). -/
def splitFirstEq : List Char → List Char × Option (List Char)
  | [] => ([], none)
  | c :: cs =>
    if c = '=' then ([], some cs)
    else (c :: (splitFirstEq cs).1, (splitFirstEq cs).2)

/-- Shallow embedding of `extract_environment_from_image_config` (df.py lines
117-132).  Returns the accumulated `loader.env.*` text together with the
printed skip-warnings, or `none` when the Python raises `IndexError` — that
is, when `split('=', maxsplit=1)[1]` is evaluated on an entry without `=`.
Note the code escapes the whole entry first and splits the escaped entry;
since neither replacement contains `=`, this splits at the image of the
original first `=`. -/
def extract_environment_from_image_config : List String → Option (String × List String)
  | [] => some ("", [])
  | env_var :: rest =>
    if '\n' ∈ env_var.data then
      match extract_environment_from_image_config rest with
      | none => none
      | some (text, warns) =>
        some (text,
          ("Skipping environment variable `" ++ (⟨(splitFirstEq env_var.data).1⟩ : String) ++
            "`: its value contains newlines.") :: warns)
    else
      let escaped := pyTranslate env_var
      match (splitFirstEq escaped.data).2 with
      | none => none
      | some env_var_value =>
        let env_var_name : String := ⟨(splitFirstEq escaped.data).1⟩
        match extract_environment_from_image_config rest with
        | none => none
        | some (text, warns) =>
          some ("loader.env." ++ env_var_name ++ " = \"" ++ (⟨env_var_value⟩ : String) ++ "\"\n" ++ text,
            warns)

/-- Claim-side rendering of one environment entry (C7's wording): split
`KEY=VALUE` on the first `=`; emit nothing when the value contains a line
break; otherwise emit a `loader.env.KEY = "VALUE"` line with exactly the
backslash and double-quote characters escaped. -/
def specRenderEnvEntry (env_var : String) : String :=
  match splitFirstEq env_var.data with
  | (_, none) => ""
  | (key, some value) =>
    if '\n' ∈ value then ""
    else "loader.env." ++ pyTranslate ⟨key⟩ ++ " = \"" ++ pyTranslate ⟨value⟩ ++ "\"\n"

/-- Claim-side skip test (C7): the part after the first `=` contains a line
break. -/
def specValueHasNewline (env_var : String) : Bool :=
  match (splitFirstEq env_var.data).2 with
  | some value => '\n' ∈ value
  | none => false

/-- The warning printed for a skipped environment entry (df.py line 125). -/
def specSkipWarning (env_var : String) : String :=
  "Skipping environment variable `" ++ (⟨(splitFirstEq env_var.data).1⟩ : String) ++
    "`: its value contains newlines."

/-- A manifest value: the TOML scalars the manifests use (string, integer,
boolean), arrays, and tables.  Tables keep insertion order like Python dicts
and are association lists with unique keys (a TOML/YAML parse never produces
a duplicate key). -/
inductive MVal where
  | str : String → MVal
  | int : Int → MVal
  | bool : Bool → MVal
  | list : List MVal → MVal
  | dict : List (String × MVal) → MVal

/-- A manifest tree: a Python dict keyed by strings, in insertion order. -/
abbrev Manifest := List (String × MVal)

/-- Python `key in d` / `d[key]` read: the value at the first matching key. -/
def alookup : Manifest → String → Option MVal
  | [], _ => none
  | (k, v) :: rest, key => if k = key then some v else alookup rest key

/-- Python `d[key] = v`: replace the value at an existing key in place
(keeping its position), or append the new key at the end. -/
def aset : Manifest → String → MVal → Manifest
  | [], key, v => [(key, v)]
  | (k, w) :: rest, key, v =>
    if k = key then (k, v) :: rest else (k, w) :: aset rest key v

mutual

/-- Python `==` on manifest values: numbers compare by value (`1 == True` in
Python, booleans being ints), lists compare pointwise, dicts compare without
regard to order.  Only the scalar cases are reachable from the merge (the
dict/dict and list/list pairs are dispatched before `==` is consulted); the
recursive cases are still defined faithfully. -/
def pyEq : MVal → MVal → Bool
  | .str a, .str b => a = b
  | .int a, .int b => a = b
  | .bool a, .bool b => a = b
  | .int a, .bool b => a = (if b then (1 : Int) else 0)
  | .bool a, .int b => (if a then (1 : Int) else 0) = b
  | .list a, .list b => pyEqList a b
  | .dict a, .dict b => a.length = b.length && pyEqEntries a b
  | _, _ => false

/-- Pointwise Python `==` on lists. -/
def pyEqList : List MVal → List MVal → Bool
  | [], [] => true
  | x :: xs, y :: ys => pyEq x y && pyEqList xs ys
  | _, _ => false

/-- Every entry of the first dict is matched by the second (with unique keys
and equal lengths this is Python dict equality). -/
def pyEqEntries : List (String × MVal) → List (String × MVal) → Bool
  | [], _ => true
  | (k, v) :: rest, d2 =>
    (match alookup d2 k with
     | some v2 => pyEq v v2
     | none => false) && pyEqEntries rest d2

end

/-- Escaping inside Python `repr` of a string (common cases). -/
def reprEscapeChar (c : Char) : String :=
  if c = '\\' then "\\\\"
  else if c = Char.ofNat 39 then "\\" ++ String.singleton (Char.ofNat 39)
  else if c = '\n' then "\\n"
  else if c = '\t' then "\\t"
  else if c = '\r' then "\\r"
  else String.singleton c

/-- Escaping inside Python `repr` of a string, over the whole string. -/
def reprEscapeString (s : String) : String :=
  String.join (s.data.map reprEscapeChar)

mutual

/-- Python `str()` of a manifest value, as interpolated by the f-string in
the merge's concatenation branch: a string interpolates as itself, an int in
decimal, a boolean as `True`/`False`, and containers via `repr`. -/
def pyStr : MVal → String
  | .str s => s
  | .int n => toString n
  | .bool b => if b then "True" else "False"
  | .list l => "[" ++ String.intercalate ", " (pyReprList l) ++ "]"
  | .dict d => "\x7b" ++ String.intercalate ", " (pyReprDict d) ++ "\x7d"

/-- Python `repr()` of a manifest value.  String escaping is simplified to
the common cases (backslash, quote, newline, tab, carriage return); this is
only reachable when a list or table value meets the colon-concatenation
branch, which TOML manifests never produce there. -/
def pyRepr : MVal → String
  | .str s => String.singleton (Char.ofNat 39) ++ reprEscapeString s ++ String.singleton (Char.ofNat 39)
  | .int n => toString n
  | .bool b => if b then "True" else "False"
  | .list l => "[" ++ String.intercalate ", " (pyReprList l) ++ "]"
  | .dict d => "\x7b" ++ String.intercalate ", " (pyReprDict d) ++ "\x7d"

/-- `repr` of each element of a list. -/
def pyReprList : List MVal → List String
  | [] => []
  | v :: vs => pyRepr v :: pyReprList vs

/-- `repr` of each `key: value` entry of a dict. -/
def pyReprDict : List (String × MVal) → List String
  | [] => []
  | (k, v) :: rest =>
    (String.singleton (Char.ofNat 39) ++ reprEscapeString k ++ String.singleton (Char.ofNat 39) ++
      ": " ++ pyRepr v) :: pyReprDict rest

end

/-- A scalar manifest value in the sense of the merge rules: neither a table
nor an ordered sequence. -/
def isScalar : MVal → Bool
  | .dict _ => false
  | .list _ => false
  | _ => true

/-- `'.'.join(path)`. -/
def pathJoinDot : List String → String
  | [] => ""
  | [p] => p
  | p :: rest => p ++ "." ++ pathJoinDot rest

/-- The non-recursive arm of the merge loop body (df.py lines 172-187): the
cases where the key exists in both manifests and the two values are not both
tables.  Returns the updated first manifest and the printed warnings.  A
list/list pair concatenates; equal values (Python `==`) are a no-op; three
environment keys at the dotted path `loader.env` concatenate with a colon
(primary first) and warn; otherwise the primary's value is kept and the
secondary's discarded, with a warning. -/
def merge_conflict (manifest1 : Manifest) (key : String) (v1 v2 : MVal)
    (manifest1_name manifest2_name : String) (path : List String) :
    Manifest × List String :=
  match v1, v2 with
  | .list l1, .list l2 => (aset manifest1 key (.list (l1 ++ l2)), [])
  | w1, w2 =>
    if pyEq w1 w2 then (manifest1, [])
    else if pathJoinDot path = "loader.env" ∧
        key ∈ ["LD_LIBRARY_PATH", "PATH", "LD_PRELOAD"] then
      (aset manifest1 key (.str (pyStr w1 ++ ":" ++ pyStr w2)),
        ["Warning: Duplicate key `" ++ pathJoinDot (path ++ [key]) ++
          "`. Concatenating values from `" ++ manifest1_name ++ "` and `" ++
          manifest2_name ++ "`."])
    else
      (manifest1,
        ["Warning: Duplicate key `" ++ pathJoinDot (path ++ [key]) ++
          "`. Overriding value from `" ++ manifest2_name ++ "` by the one in `" ++
          manifest1_name ++ "`."])

mutual

/-- Shallow embedding of `merge_manifests_in_order` (df.py lines 166-190).
Walks the second manifest's keys in order, mutating and returning the first;
the returned list collects the printed warnings in print order.  The loop
body for one key is `merge_key` (split out so the recursion matches only on
argument patterns); the in-place mutation of nested dicts
(`merge_manifests_in_order(manifest1[key], ...)`) is the re-insertion of the
recursively merged table at the same key. -/
def merge_manifests_in_order (manifest1 : Manifest) (manifest2 : Manifest)
    (manifest1_name manifest2_name : String) (path : List String) :
    Manifest × List String :=
  match manifest2 with
  | [] => (manifest1, [])
  | (key, v2) :: rest =>
    let step := merge_key manifest1 key (alookup manifest1 key) v2
      manifest1_name manifest2_name path
    let r := merge_manifests_in_order step.1 rest manifest1_name manifest2_name path
    (r.1, step.2 ++ r.2)

/-- One iteration of the merge loop (df.py lines 167-189), given the current
first manifest, the key, the result of the `key in manifest1` lookup, and the
second manifest's value at the key: a missing key is copied over; two tables
recurse with the path extended by the key; every other combination is
`merge_conflict`. -/
def merge_key (manifest1 : Manifest) (key : String) :
    Option MVal → MVal → String → String → List String → Manifest × List String
  | none, v2, _, _, _ => (aset manifest1 key v2, [])
  | some (.dict d1), .dict d2, manifest1_name, manifest2_name, path =>
    let r := merge_manifests_in_order d1 d2 manifest1_name manifest2_name (path ++ [key])
    (aset manifest1 key (.dict r.1), r.2)
  | some v1, v2, manifest1_name, manifest2_name, path =>
    merge_conflict manifest1 key v1 v2 manifest1_name manifest2_name path

end

mutual

/-- State-passing embedding of the same source function for the frame claim:
alongside the merged primary it reconstructs, step by step, the state of the
secondary manifest after the call — each step hands back the (sub)tree of the
secondary it touched, and the dict/dict case re-inserts the secondary subtree
returned by the recursive call (`merge_pair_key`).  The printed warnings are
elided (they are not part of either manifest). -/
def merge_pair (manifest1 : Manifest) (manifest2 : Manifest)
    (manifest1_name manifest2_name : String) (path : List String) :
    Manifest × Manifest :=
  match manifest2 with
  | [] => (manifest1, [])
  | (key, v2) :: rest =>
    let step := merge_pair_key manifest1 key (alookup manifest1 key) v2
      manifest1_name manifest2_name path
    let r := merge_pair step.1 rest manifest1_name manifest2_name path
    (r.1, step.2 :: r.2)

/-- One iteration of the state-passing merge: returns the updated primary and
the state of the secondary's entry for this key after the iteration. -/
def merge_pair_key (manifest1 : Manifest) (key : String) :
    Option MVal → MVal → String → String → List String → Manifest × (String × MVal)
  | none, v2, _, _, _ => (aset manifest1 key v2, (key, v2))
  | some (.dict d1), .dict d2, manifest1_name, manifest2_name, path =>
    let ri := merge_pair d1 d2 manifest1_name manifest2_name (path ++ [key])
    (aset manifest1 key (.dict ri.1), (key, .dict ri.2))
  | some v1, v2, manifest1_name, manifest2_name, path =>
    ((merge_conflict manifest1 key v1 v2 manifest1_name manifest2_name path).1, (key, v2))

end

/-! ### Helper lemmas about splitting on the first `=` -/

theorem splitFirstEq_snd_isSome (l : List Char) :
    (splitFirstEq l).2.isSome = true ↔ '=' ∈ l := by
  induction l with
  | nil => simp [splitFirstEq]
  | cons c cs ih =>
    by_cases hc : c = '='
    · subst hc; simp [splitFirstEq]
    · simp [splitFirstEq, hc, ih, Ne.symm hc]

theorem eq_not_mem_translateChar {c : Char} (hc : c ≠ '=') : '=' ∉ translateChar c := by
  unfold translateChar
  split_ifs
  · decide
  · decide
  · simp only [List.mem_singleton]
    exact fun e => hc e.symm

theorem splitFirstEq_append_of_not_mem (pre l : List Char) (h : '=' ∉ pre) :
    splitFirstEq (pre ++ l) = (pre ++ (splitFirstEq l).1, (splitFirstEq l).2) := by
  induction pre with
  | nil => simp
  | cons c cs ih =>
    have hc : c ≠ '=' := by rintro rfl; exact h (by simp)
    have hcs : '=' ∉ cs := fun hm => h (by simp [hm])
    simp [splitFirstEq, hc, ih hcs]

theorem splitFirstEq_translate (l : List Char) :
    splitFirstEq ((l.map translateChar).flatten) =
      (((splitFirstEq l).1.map translateChar).flatten,
        ((splitFirstEq l).2).map fun v => (v.map translateChar).flatten) := by
  induction l with
  | nil => simp [splitFirstEq]
  | cons c cs ih =>
    by_cases hc : c = '='
    · subst hc
      have ht : translateChar '=' = ['='] := by decide
      simp [splitFirstEq, ht]
    · rw [List.map_cons, List.flatten_cons,
        splitFirstEq_append_of_not_mem _ _ (eq_not_mem_translateChar hc), ih]
      simp [splitFirstEq, hc]

theorem splitFirstEq_reconstruct (l : List Char) :
    ∀ a b, splitFirstEq l = (a, some b) → l = a ++ '=' :: b := by
  induction l with
  | nil => intro a b h; simp [splitFirstEq] at h
  | cons c cs ih =>
    intro a b h
    by_cases hc : c = '='
    · subst hc
      simp only [splitFirstEq, if_pos rfl, Prod.mk.injEq, Option.some.injEq] at h
      obtain ⟨rfl, rfl⟩ := h
      simp
    · simp only [splitFirstEq, if_neg hc, Prod.mk.injEq] at h
      obtain ⟨rfl, h2⟩ := h
      have hcs : splitFirstEq cs = ((splitFirstEq cs).1, some b) := by rw [← h2]
      simp only [List.cons_append]
      exact congrArg (List.cons c) (ih _ _ hcs)

/-! ### C1: the cmd remainder -/

/-- C1 counterexample: with entrypoint `["/bin/run", "-a"]` and cmd `["c0"]`
the claim predicts `cmd_remainder = ["c0"]` (the arguments contributed by
`cmd`, i.e. everything after the binary and the entrypoint-contributed fixed
arguments, `claimedCmdRemainder`), but the code slices from index
`len(entrypoint) + 1` and computes `[]` — the first `cmd` element is
dropped. -/
theorem cmd_remainder_drops_first_cmd_argument :
    (extract_binary_info_from_image_config
        ⟨some ["/bin/run", "-a"], some ["c0"], none, none, none⟩).map BinaryInfo.cmd =
      .ok [] ∧
    claimedCmdRemainder ["/bin/run", "-a"] ["c0"] = ["c0"] ∧
    ([] : List String) ≠ ["c0"] :=
  ⟨rfl, rfl, by decide⟩

/-- C1 corrected: the new command is `cmd` itself when the original
entrypoint had exactly one element, and `cmd[1:]` otherwise — both when the
entrypoint was empty (the claimed behaviour) and when it had two or more
elements (where the claim expected all of `cmd` to be kept).  The two special
cases named by the claim do hold: with non-empty entrypoint and empty cmd the
remainder is empty, and with empty entrypoint it is `cmd[1:]`. -/
theorem cmd_remainder_amended (config : ImageConfig)
    (h : config.Entrypoint.getD [] ++ config.Cmd.getD [] ≠ []) :
    (extract_binary_info_from_image_config config).map BinaryInfo.cmd =
      .ok (if (config.Entrypoint.getD []).length = 1 then config.Cmd.getD []
        else (config.Cmd.getD []).drop 1) ∧
    (config.Cmd.getD [] = [] →
      (extract_binary_info_from_image_config config).map BinaryInfo.cmd = .ok []) ∧
    (config.Entrypoint.getD [] = [] →
      (extract_binary_info_from_image_config config).map BinaryInfo.cmd =
        .ok ((config.Cmd.getD []).drop 1)) := by
  have hmain : (extract_binary_info_from_image_config config).map BinaryInfo.cmd =
      .ok (if (config.Entrypoint.getD []).length = 1 then config.Cmd.getD []
        else (config.Cmd.getD []).drop 1) := by
    simp only [extract_binary_info_from_image_config]
    rw [if_neg h]
    simp only [Except.map]
    congr 1
    by_cases h1 : 1 < (config.Entrypoint.getD []).length
    · rw [if_pos h1, if_neg (by omega : ¬ (config.Entrypoint.getD []).length = 1)]
      by_cases h2 : (config.Entrypoint.getD []).length + 1 <
          (config.Entrypoint.getD [] ++ config.Cmd.getD []).length
      · rw [if_pos h2, show (config.Entrypoint.getD []).length + 1 =
          (config.Entrypoint.getD []).length + 1 from rfl, List.drop_append]
      · rw [if_neg h2, eq_comm]
        refine List.drop_eq_nil_of_le ?_
        simp only [List.length_append] at h2
        omega
    · rw [if_neg h1]
      rcases Nat.lt_or_ge (config.Entrypoint.getD []).length 1 with h0 | h0
      · have he : config.Entrypoint.getD [] = [] := by
          rw [← List.length_eq_zero]; omega
        rw [he]
        simp only [List.nil_append, List.length_nil]
        rw [if_neg (by decide : ¬ (0 : Nat) = 1)]
        by_cases h2 : 0 + 1 < (config.Cmd.getD []).length
        · rw [if_pos h2]
        · rw [if_neg h2, eq_comm]
          exact List.drop_eq_nil_of_le (by omega)
      · have he1 : (config.Entrypoint.getD []).length = 1 := by omega
        obtain ⟨a, ha⟩ := List.length_eq_one.mp he1
        rw [if_pos he1, ha]
        simp only [List.cons_append, List.nil_append, List.length_cons]
        by_cases h2 : 0 + 1 < (config.Cmd.getD []).length + 1
        · rw [if_pos h2]
          simp
        · rw [if_neg h2, eq_comm, ← List.length_eq_zero]
          omega
  refine ⟨hmain, fun hc => ?_, fun he => ?_⟩
  · rw [hmain, hc]
    simp
  · rw [hmain, he]
    simp

/-- Witness for the amended C1 at a concrete configuration exercising the
two-element-entrypoint case. -/
theorem cmd_remainder_amended_witness :
    (extract_binary_info_from_image_config
        ⟨some ["/bin/run", "-a"], some ["c0", "c1"], none, none, none⟩).map BinaryInfo.cmd =
      .ok ["c1"] := by
  have := (cmd_remainder_amended
    ⟨some ["/bin/run", "-a"], some ["c0", "c1"], none, none, none⟩ (by decide)).1
  simpa using this

/-! ### C2: binary path resolution -/

/-- C2 counterexample: the claim's example says `working_dir=""` and
`binary="./app"` give `/app`, but the code concatenates the canonicalized
working directory with the relative path without normalizing it, giving
`/./app`. -/
theorem binary_path_example_counterexample :
    (extract_binary_info_from_image_config
        ⟨some ["./app"], some [], some "", none, none⟩).map BinaryInfo.binary =
      .ok "/./app" ∧
    ("/./app" : String) ≠ "/app" :=
  ⟨rfl, by decide⟩

/-- C2 corrected: an absolute binary path and a bare command name (no path
separator) are left untouched, and a relative path containing a separator is
prefixed with the canonicalized working directory by plain concatenation,
without path normalization — so `working_dir=""` and `binary="./app"` give
`/./app` (not `/app`), and `binary="app"` stays `app`. -/
theorem binary_path_resolution_amended (config : ImageConfig)
    (h : config.Entrypoint.getD [] ++ config.Cmd.getD [] ≠ []) :
    ((((config.Entrypoint.getD [] ++ config.Cmd.getD []).headD "").data.head? = some '/' →
      (extract_binary_info_from_image_config config).map BinaryInfo.binary =
        .ok ((config.Entrypoint.getD [] ++ config.Cmd.getD []).headD "")) ∧
    ('/' ∉ ((config.Entrypoint.getD [] ++ config.Cmd.getD []).headD "").data →
      (extract_binary_info_from_image_config config).map BinaryInfo.binary =
        .ok ((config.Entrypoint.getD [] ++ config.Cmd.getD []).headD "")) ∧
    ((((config.Entrypoint.getD [] ++ config.Cmd.getD []).headD "").data.head? ≠ some '/' →
      '/' ∈ ((config.Entrypoint.getD [] ++ config.Cmd.getD []).headD "").data →
      (extract_binary_info_from_image_config config).map BinaryInfo.binary =
        .ok (canonizeWorkingDir (config.WorkingDir.getD "") ++
          ((config.Entrypoint.getD [] ++ config.Cmd.getD []).headD ""))))) ∧
    (extract_binary_info_from_image_config
        ⟨some ["./app"], some [], some "", none, none⟩).map BinaryInfo.binary =
      .ok "/./app" ∧
    (extract_binary_info_from_image_config
        ⟨some ["app"], none, none, none, none⟩).map BinaryInfo.binary =
      .ok "app" := by
  refine ⟨⟨?_, ?_, ?_⟩, rfl, rfl⟩
  · intro h1
    simp only [extract_binary_info_from_image_config]
    rw [if_neg h, if_neg]
    · simp [Except.map]
    · rintro ⟨hne, _⟩
      exact hne h1
  · intro h2
    simp only [extract_binary_info_from_image_config]
    rw [if_neg h, if_neg]
    · simp [Except.map]
    · rintro ⟨_, hm⟩
      exact h2 hm
  · intro h3 h4
    simp only [extract_binary_info_from_image_config]
    rw [if_neg h, if_pos ⟨h3, h4⟩]
    simp [Except.map]

/-- Witness for the amended C2 at a concrete relative path with a
separator. -/
theorem binary_path_resolution_amended_witness :
    (extract_binary_info_from_image_config
        ⟨some ["some_dir/my_app"], none, some "/work", none, none⟩).map BinaryInfo.binary =
      .ok "/work/some_dir/my_app" := by
  have := ((binary_path_resolution_amended
    ⟨some ["some_dir/my_app"], none, some "/work", none, none⟩ (by decide)).1.2.2)
    (by decide) (by decide)
  simpa using this

/-! ### C3: the image inspector -/

/-- C3 counterexample: the claim says the absence of the image is reported to
the caller as an error signal, not as a normal return value.  In the code the
`ImageNotFound` exception is caught inside `get_docker_image`, which then
returns `None`: at a docker socket on which `images.get` raises
`ImageNotFound`, the function returns the ordinary value `none` and no error
escapes (its return type carries no error at all). -/
theorem get_docker_image_absent_returns_none :
    get_docker_image (fun _ => .error .imageNotFound) "ubuntu:18.04" = none :=
  rfl

/-- C3 amended: `get_docker_image` returns the image when `images.get`
succeeds, and returns `None` — a normal return value, the exception being
caught — when the image is absent (`ImageNotFound`) or the build service
errs (`APIError`). -/
theorem get_docker_image_amended (images : String → Except DockerError Nat)
    (image_name : String) :
    (∀ img, images image_name = .ok img → get_docker_image images image_name = some img) ∧
    (∀ e, images image_name = .error e → get_docker_image images image_name = none) := by
  constructor
  · intro img h; simp [get_docker_image, h]
  · intro e h; cases e <;> simp [get_docker_image, h]

/-- Witness for the amended C3 at concrete docker sockets. -/
theorem get_docker_image_amended_witness :
    get_docker_image (fun _ => .ok 7) "alpine" = some 7 ∧
    get_docker_image (fun _ => .error .apiError) "alpine" = none :=
  ⟨(get_docker_image_amended (fun _ => .ok 7) "alpine").1 7 rfl,
    (get_docker_image_amended (fun _ => .error .apiError) "alpine").2 .apiError rfl⟩

/-! ### C4: empty entrypoint and cmd -/

/-- C4: for every image configuration whose entrypoint and cmd are both
empty, `extract_binary_info_from_image_config` prints the user-facing message
and exits with status 1 (a non-zero status), producing no binary
descriptor. -/
theorem no_entrypoint_fatal (config : ImageConfig)
    (h1 : config.Entrypoint.getD [] = []) (h2 : config.Cmd.getD [] = []) :
    extract_binary_info_from_image_config config =
      .error ⟨1, "Could not find the entrypoint binary to the application image."⟩ ∧
    (1 : Nat) ≠ 0 := by
  refine ⟨?_, by decide⟩
  unfold extract_binary_info_from_image_config
  rw [h1, h2]
  simp

/-- Witness for C4 at a concrete configuration with `Entrypoint: null` and
`Cmd: []`. -/
theorem no_entrypoint_fatal_witness :
    extract_binary_info_from_image_config ⟨none, some [], some "/w", none, none⟩ =
      .error ⟨1, "Could not find the entrypoint binary to the application image."⟩ :=
  (no_entrypoint_fatal ⟨none, some [], some "/w", none, none⟩ rfl rfl).1

/-! ### C8: Red Hat distro-string parsing -/

/-- C8: the Red Hat credential-staging routine parses the UBI version with
the pattern `redhat/ubi(\d+)(-minimal)?`: `redhat/ubi9` gives version `9`,
`redhat/ubi9-minimal` gives `9`, and `redhat/centos8` raises the
invalid-distro-format error. -/
theorem redhat_version_parsing :
    handle_redhat_version "redhat/ubi9" = .ok (some "9") ∧
    handle_redhat_version "redhat/ubi9-minimal" = .ok (some "9") ∧
    handle_redhat_version "redhat/centos8" =
      .error "Invalid Red Hat distro format: redhat/centos8" :=
  ⟨rfl, rfl, rfl⟩

/-! ### C7: environment rendering -/

/-- C7: for an environment whose `KEY=VALUE` entries have keys free of line
breaks, the extraction walks the entries in their original order; an entry
whose value contains a line break contributes nothing to the text but its
skip-warning (while every sibling entry is still emitted), and every emitted
line renders the entry with exactly the backslash and double-quote characters
of the value (and key) escaped, as `loader.env.KEY = "VALUE"`. -/
theorem environment_rendering (env_list : List String)
    (hEq : ∀ e ∈ env_list, '=' ∈ e.data)
    (hKey : ∀ e ∈ env_list, '\n' ∉ (splitFirstEq e.data).1) :
    extract_environment_from_image_config env_list =
      some ((env_list.map specRenderEnvEntry).foldr (· ++ ·) "",
        (env_list.filter fun e => specValueHasNewline e).map specSkipWarning) := by
  induction env_list with
  | nil =>
    simp [extract_environment_from_image_config]
  | cons e rest ih =>
    have ihr := ih (fun x hx => hEq x (List.mem_cons_of_mem _ hx))
      (fun x hx => hKey x (List.mem_cons_of_mem _ hx))
    have he : '=' ∈ e.data := hEq e (List.mem_cons_self e rest)
    obtain ⟨v, hv⟩ := Option.isSome_iff_exists.mp ((splitFirstEq_snd_isSome e.data).mpr he)
    have hsplit : splitFirstEq e.data = ((splitFirstEq e.data).1, some v) := by rw [← hv]
    have hrecon := splitFirstEq_reconstruct e.data _ _ hsplit
    have hk : '\n' ∉ (splitFirstEq e.data).1 := hKey e (List.mem_cons_self e rest)
    have hmem : ('\n' ∈ e.data) ↔ '\n' ∈ v := by
      rw [hrecon]
      simp [List.mem_append, hk]
    have hval : specValueHasNewline e = decide ('\n' ∈ v) := by
      unfold specValueHasNewline
      rw [hv]
    by_cases hn : '\n' ∈ v
    · have hren : specRenderEnvEntry e = "" := by
        unfold specRenderEnvEntry
        rw [hsplit]
        simp [hn]
      have hval1 : specValueHasNewline e = true := by
        rw [hval]; exact decide_eq_true hn
      simp only [extract_environment_from_image_config]
      rw [if_pos (hmem.mpr hn), ihr]
      simp only [List.map_cons, List.foldr_cons, hren, String.empty_append,
        List.filter_cons, hval1, if_true, List.map_cons]
      rfl
    · have hren : specRenderEnvEntry e =
          "loader.env." ++ pyTranslate ⟨(splitFirstEq e.data).1⟩ ++ " = \"" ++
            pyTranslate ⟨v⟩ ++ "\"\n" := by
        unfold specRenderEnvEntry
        rw [hsplit]
        simp [hn]
      have hsplit2 : splitFirstEq (pyTranslate e).data =
          (((splitFirstEq e.data).1.map translateChar).flatten,
            some ((v.map translateChar).flatten)) := by
        rw [show (pyTranslate e).data = (e.data.map translateChar).flatten from rfl,
          splitFirstEq_translate, hsplit]
        simp
      have hval0 : specValueHasNewline e = false := by
        rw [hval]; simp [hn]
      simp only [extract_environment_from_image_config]
      rw [if_neg (fun hx => hn (hmem.mp hx))]
      rw [hsplit2]
      simp only [ihr]
      simp only [List.map_cons, List.foldr_cons, hren, List.filter_cons, hval0,
        Bool.false_eq_true, if_false, Option.some.injEq, Prod.mk.injEq]
      refine ⟨?_, trivial⟩
      simp only [String.append_assoc]
      rfl

/-- Witness for C7: a value with a quote and a backslash is escaped, the
entry with a newline in its value is skipped with the warning, and the
sibling entries are still emitted, in order. -/
theorem environment_rendering_witness :
    extract_environment_from_image_config ["A=x\"y\\z", "B=p\nq", "C=ok"] =
      some ("loader.env.A = \"x\\\"y\\\\z\"\nloader.env.C = \"ok\"\n",
        ["Skipping environment variable `B`: its value contains newlines."]) := by
  have h := environment_rendering ["A=x\"y\\z", "B=p\nq", "C=ok"] (by decide) (by decide)
  rw [h]
  rfl

/-! ### C10: every entry containing `=` is a precondition -/

/-- Auxiliary: under the precondition that every entry contains `=`, the
extraction never hits the `IndexError`. -/
theorem extract_env_isSome (env_list : List String)
    (h : ∀ e ∈ env_list, '=' ∈ e.data) :
    (extract_environment_from_image_config env_list).isSome = true := by
  induction env_list with
  | nil => simp [extract_environment_from_image_config]
  | cons e rest ih =>
    have hrest := ih fun x hx => h x (List.mem_cons_of_mem _ hx)
    obtain ⟨⟨text, warns⟩, hw⟩ := Option.isSome_iff_exists.mp hrest
    by_cases hn : '\n' ∈ e.data
    · simp [extract_environment_from_image_config, if_pos hn, hw]
    · have hsnd : ((splitFirstEq (pyTranslate e).data).2).isSome = true := by
        rw [show (pyTranslate e).data = (e.data.map translateChar).flatten from rfl,
          splitFirstEq_translate]
        simpa using (splitFirstEq_snd_isSome e.data).mpr (h e (List.mem_cons_self e rest))
      obtain ⟨v, hv⟩ := Option.isSome_iff_exists.mp hsnd
      simp [extract_environment_from_image_config, if_neg hn, hv, hw]

/-- C10: if every `Env` entry contains `=`, the extraction completes without
error, while a single entry without `=` (and without a newline) makes the
value access `split('=', maxsplit=1)[1]` raise `IndexError` (the `none`
outcome). -/
theorem environment_requires_eq (env_list : List String)
    (h : ∀ e ∈ env_list, '=' ∈ e.data) :
    (extract_environment_from_image_config env_list).isSome = true ∧
    extract_environment_from_image_config ["JAVA_TOOL_OPTIONS"] = none :=
  ⟨extract_env_isSome env_list h, rfl⟩

/-- Witness for C10 at a concrete well-formed environment. -/
theorem environment_requires_eq_witness :
    (extract_environment_from_image_config ["PATH=/usr/bin", "HOME=/root"]).isSome = true ∧
    extract_environment_from_image_config ["JAVA_TOOL_OPTIONS"] = none :=
  environment_requires_eq ["PATH=/usr/bin", "HOME=/root"] (by decide)

/-! ### Helper lemmas about `alookup`, `aset` and the merge -/

theorem alookup_aset_self (d : Manifest) (k : String) (v : MVal) :
    alookup (aset d k v) k = some v := by
  induction d with
  | nil => simp [aset, alookup]
  | cons hd tl ih =>
    obtain ⟨k', w⟩ := hd
    by_cases h : k' = k <;> simp [aset, alookup, h, ih]

theorem alookup_aset_ne (d : Manifest) (k' : String) (v : MVal) (k : String)
    (h : k' ≠ k) : alookup (aset d k' v) k = alookup d k := by
  induction d with
  | nil => simp [aset, alookup, h]
  | cons hd tl ih =>
    obtain ⟨k0, w⟩ := hd
    by_cases h0 : k0 = k' <;> by_cases h1 : k0 = k <;>
      simp_all [aset, alookup]

theorem merge_conflict_fst (m1 : Manifest) (key : String) (v1 v2 : MVal)
    (n1 n2 : String) (p : List String) :
    (merge_conflict m1 key v1 v2 n1 n2 p).1 = m1 ∨
      ∃ w, (merge_conflict m1 key v1 v2 n1 n2 p).1 = aset m1 key w := by
  unfold merge_conflict
  split
  · exact Or.inr ⟨_, rfl⟩
  · split_ifs <;> first | exact Or.inl rfl | exact Or.inr ⟨_, rfl⟩

theorem merge_key_fst (m1 : Manifest) (key : String) (ov : Option MVal) (v2 : MVal)
    (n1 n2 : String) (p : List String) :
    (merge_key m1 key ov v2 n1 n2 p).1 = m1 ∨
      ∃ w, (merge_key m1 key ov v2 n1 n2 p).1 = aset m1 key w := by
  cases ov with
  | none =>
    simp only [merge_key]
    exact Or.inr ⟨_, rfl⟩
  | some v1 =>
    cases v1 <;> cases v2 <;> simp only [merge_key] <;>
      first
        | exact Or.inr ⟨_, rfl⟩
        | exact merge_conflict_fst ..

theorem alookup_merge_key_ne (m1 : Manifest) (key : String) (ov : Option MVal)
    (v2 : MVal) (n1 n2 : String) (p : List String) (k : String) (h : key ≠ k) :
    alookup (merge_key m1 key ov v2 n1 n2 p).1 k = alookup m1 k := by
  rcases merge_key_fst m1 key ov v2 n1 n2 p with h1 | ⟨w, hw⟩
  · rw [h1]
  · rw [hw, alookup_aset_ne _ _ _ _ h]

theorem alookup_merge_not_mem (m2 : Manifest) :
    ∀ (m1 : Manifest) (n1 n2 : String) (p : List String) (k : String),
      k ∉ m2.map Prod.fst →
      alookup (merge_manifests_in_order m1 m2 n1 n2 p).1 k = alookup m1 k := by
  induction m2 with
  | nil =>
    intro m1 n1 n2 p k _
    simp [merge_manifests_in_order]
  | cons hd tl ih =>
    obtain ⟨key, v2⟩ := hd
    intro m1 n1 n2 p k hk
    simp only [List.map_cons, List.mem_cons, not_or] at hk
    simp only [merge_manifests_in_order]
    rw [ih _ n1 n2 p k hk.2, alookup_merge_key_ne _ _ _ _ _ _ _ _ (fun e => hk.1 e.symm)]

/-- Evaluation of one merge iteration on a conflicting pair of unequal
scalars: the colon-concatenation for the three environment keys at dotted
path `loader.env`, the keep-primary default otherwise, each with its
warning. -/
theorem merge_key_scalar (m1 : Manifest) (key : String) (v1 v2 : MVal)
    (n1 n2 : String) (p : List String)
    (hs1 : isScalar v1 = true) (hs2 : isScalar v2 = true)
    (hne : pyEq v1 v2 = false) :
    merge_key m1 key (some v1) v2 n1 n2 p =
      if pathJoinDot p = "loader.env" ∧ key ∈ ["LD_LIBRARY_PATH", "PATH", "LD_PRELOAD"] then
        (aset m1 key (.str (pyStr v1 ++ ":" ++ pyStr v2)),
          ["Warning: Duplicate key `" ++ pathJoinDot (p ++ [key]) ++
            "`. Concatenating values from `" ++ n1 ++ "` and `" ++ n2 ++ "`."])
      else
        (m1,
          ["Warning: Duplicate key `" ++ pathJoinDot (p ++ [key]) ++
            "`. Overriding value from `" ++ n2 ++ "` by the one in `" ++ n1 ++ "`."]) := by
  cases v1 <;> cases v2 <;>
    simp_all [merge_key, merge_conflict, isScalar]

/-- Auxiliary induction for C5 over the secondary manifest. -/
theorem merge_scalar_conflict_aux (m2 : Manifest) :
    ∀ (m1 : Manifest) (n1 n2 : String) (p : List String) (k : String) (v1 v2 : MVal),
      alookup m1 k = some v1 → alookup m2 k = some v2 →
      (m2.map Prod.fst).Nodup → isScalar v1 = true → isScalar v2 = true →
      pyEq v1 v2 = false →
      alookup (merge_manifests_in_order m1 m2 n1 n2 p).1 k =
        some (if pathJoinDot p = "loader.env" ∧ k ∈ ["LD_LIBRARY_PATH", "PATH", "LD_PRELOAD"]
          then .str (pyStr v1 ++ ":" ++ pyStr v2) else v1) ∧
      (if pathJoinDot p = "loader.env" ∧ k ∈ ["LD_LIBRARY_PATH", "PATH", "LD_PRELOAD"]
        then "Warning: Duplicate key `" ++ pathJoinDot (p ++ [k]) ++
          "`. Concatenating values from `" ++ n1 ++ "` and `" ++ n2 ++ "`."
        else "Warning: Duplicate key `" ++ pathJoinDot (p ++ [k]) ++
          "`. Overriding value from `" ++ n2 ++ "` by the one in `" ++ n1 ++ "`.")
        ∈ (merge_manifests_in_order m1 m2 n1 n2 p).2 := by
  induction m2 with
  | nil =>
    intro m1 n1 n2 p k v1 v2 _ h2 _ _ _ _
    simp [alookup] at h2
  | cons hd tl ih =>
    obtain ⟨key, w2⟩ := hd
    intro m1 n1 n2 p k v1 v2 h1 h2 hnd hs1 hs2 hne
    simp only [merge_manifests_in_order]
    by_cases hk : key = k
    · subst hk
      obtain rfl : w2 = v2 := by simpa [alookup] using h2
      have hknotin : key ∉ tl.map Prod.fst := by
        simp only [List.map_cons, List.nodup_cons] at hnd
        exact hnd.1
      rw [h1, merge_key_scalar m1 key v1 w2 n1 n2 p hs1 hs2 hne]
      split_ifs with hc
      · constructor
        · rw [alookup_merge_not_mem tl _ n1 n2 p key hknotin]
          exact alookup_aset_self m1 key _
        · exact List.mem_append_left _ (List.mem_cons_self _ _)
      · constructor
        · rw [alookup_merge_not_mem tl _ n1 n2 p key hknotin]
          exact h1
        · exact List.mem_append_left _ (List.mem_cons_self _ _)
    · have h2' : alookup tl k = some v2 := by
        simpa [alookup, hk] using h2
      have hnd' : (tl.map Prod.fst).Nodup := by
        simp only [List.map_cons, List.nodup_cons] at hnd
        exact hnd.2
      have hstep : alookup (merge_key m1 key (alookup m1 key) w2 n1 n2 p).1 k = some v1 := by
        rw [alookup_merge_key_ne _ _ _ _ _ _ _ _ hk, h1]
      obtain ⟨ihv, ihm⟩ := ih _ n1 n2 p k v1 v2 hstep h2' hnd' hs1 hs2 hne
      exact ⟨ihv, List.mem_append_right _ ihm⟩

/-! ### C5: scalar conflicts keep the primary, except the loader.env paths -/

/-- C5: whenever a key is present in both manifests with differing scalar
values (the secondary's keys being unique, as a parsed dict's are), the merge
keeps the primary's value and records the overriding warning — except when
the dotted path is exactly `loader.env` and the key is one of
`LD_LIBRARY_PATH`, `PATH`, `LD_PRELOAD`, in which case the merged value is
`"{primary}:{secondary}"` with the concatenation warning.  In particular the
nested merge of `{"loader":{"env":{"PATH":"/x"}}}` with
`{"loader":{"env":{"PATH":"/y"}}}` yields `PATH = "/x:/y"`. -/
theorem merge_scalar_conflict (m1 m2 : Manifest) (n1 n2 : String) (p : List String)
    (k : String) (v1 v2 : MVal)
    (h1 : alookup m1 k = some v1) (h2 : alookup m2 k = some v2)
    (hnd : (m2.map Prod.fst).Nodup)
    (hs1 : isScalar v1 = true) (hs2 : isScalar v2 = true)
    (hne : pyEq v1 v2 = false) :
    (alookup (merge_manifests_in_order m1 m2 n1 n2 p).1 k =
      some (if pathJoinDot p = "loader.env" ∧ k ∈ ["LD_LIBRARY_PATH", "PATH", "LD_PRELOAD"]
        then .str (pyStr v1 ++ ":" ++ pyStr v2) else v1) ∧
      (if pathJoinDot p = "loader.env" ∧ k ∈ ["LD_LIBRARY_PATH", "PATH", "LD_PRELOAD"]
        then "Warning: Duplicate key `" ++ pathJoinDot (p ++ [k]) ++
          "`. Concatenating values from `" ++ n1 ++ "` and `" ++ n2 ++ "`."
        else "Warning: Duplicate key `" ++ pathJoinDot (p ++ [k]) ++
          "`. Overriding value from `" ++ n2 ++ "` by the one in `" ++ n1 ++ "`.")
        ∈ (merge_manifests_in_order m1 m2 n1 n2 p).2) ∧
    merge_manifests_in_order
        [("loader", .dict [("env", .dict [("PATH", .str "/x")])])]
        [("loader", .dict [("env", .dict [("PATH", .str "/y")])])]
        "manifest1" "manifest2" [] =
      ([("loader", .dict [("env", .dict [("PATH", .str "/x:/y")])])],
        ["Warning: Duplicate key `loader.env.PATH`. Concatenating values from " ++
          "`manifest1` and `manifest2`."]) := by
  refine ⟨merge_scalar_conflict_aux m2 m1 n1 n2 p k v1 v2 h1 h2 hnd hs1 hs2 hne, ?_⟩
  simp [merge_manifests_in_order, merge_key, merge_conflict, alookup, aset, pyEq,
    pyStr, pathJoinDot]

/-- Witness for C5: a colon-concatenated conflict at path `loader.env`, key
`PATH`. -/
theorem merge_scalar_conflict_witness :
    alookup (merge_manifests_in_order [("PATH", MVal.str "/x")] [("PATH", MVal.str "/y")]
        "manifest1" "manifest2" ["loader", "env"]).1 "PATH" = some (.str "/x:/y") := by
  have h := (merge_scalar_conflict [("PATH", .str "/x")] [("PATH", .str "/y")]
    "manifest1" "manifest2" ["loader", "env"] "PATH" (.str "/x") (.str "/y")
    (by simp [alookup]) (by simp [alookup]) (by simp) rfl rfl (by simp [pyEq])).1.1
  rw [if_pos ⟨rfl, by decide⟩] at h
  simpa [pyStr] using h

/-! ### C6: empty-secondary identity and list concatenation -/

/-- C6: merging any manifest with the empty secondary returns it unchanged
(and silently), and a key carrying ordered sequences in both manifests gets
the primary's elements followed by the secondary's. -/
theorem merge_empty_secondary_and_list_concat :
    (∀ (m1 : Manifest) (n1 n2 : String) (p : List String),
      merge_manifests_in_order m1 [] n1 n2 p = (m1, [])) ∧
    merge_manifests_in_order [("a", .list [.int 1, .int 2])] [("a", .list [.int 3])]
        "manifest1" "manifest2" [] =
      ([("a", .list [.int 1, .int 2, .int 3])], []) := by
  constructor
  · intro m1 n1 n2 p
    simp [merge_manifests_in_order]
  · simp [merge_manifests_in_order, merge_key, merge_conflict, alookup, aset]

/-! ### C9: the merge never mutates the secondary manifest -/

/-- Auxiliary strong induction for C9: the state-passing merge hands back the
secondary manifest unchanged, at every nesting depth. -/
theorem merge_pair_snd_aux :
    ∀ (n : Nat) (m2 : Manifest), sizeOf m2 ≤ n →
      ∀ (m1 : Manifest) (n1 n2 : String) (p : List String),
        (merge_pair m1 m2 n1 n2 p).2 = m2 := by
  intro n
  induction n with
  | zero =>
    intro m2 h
    cases m2 <;> simp_all
  | succ n ih =>
    intro m2 hle m1 n1 n2 p
    cases m2 with
    | nil => simp [merge_pair]
    | cons hd rest =>
      obtain ⟨key, v2⟩ := hd
      have hrest : sizeOf rest ≤ n := by
        simp only [List.cons.sizeOf_spec, Prod.mk.sizeOf_spec] at hle
        omega
      simp only [merge_pair]
      rw [ih rest hrest]
      simp only [List.cons.injEq, and_true]
      cases halo : alookup m1 key with
      | none => simp [merge_pair_key]
      | some v1 =>
        cases v1 <;> cases v2 <;> simp only [merge_pair_key]
        case dict.dict d1 d2 =>
          have hd2 : sizeOf d2 ≤ n := by
            simp only [List.cons.sizeOf_spec, Prod.mk.sizeOf_spec,
              MVal.dict.sizeOf_spec] at hle
            omega
          rw [ih d2 hd2]

/-- Auxiliary strong induction for C9: the primary component of the
state-passing merge agrees with the direct embedding of the source merge. -/
theorem merge_pair_fst_aux :
    ∀ (n : Nat) (m2 : Manifest), sizeOf m2 ≤ n →
      ∀ (m1 : Manifest) (n1 n2 : String) (p : List String),
        (merge_pair m1 m2 n1 n2 p).1 = (merge_manifests_in_order m1 m2 n1 n2 p).1 := by
  intro n
  induction n with
  | zero =>
    intro m2 h
    cases m2 <;> simp_all
  | succ n ih =>
    intro m2 hle m1 n1 n2 p
    cases m2 with
    | nil => simp [merge_pair, merge_manifests_in_order]
    | cons hd rest =>
      obtain ⟨key, v2⟩ := hd
      have hrest : sizeOf rest ≤ n := by
        simp only [List.cons.sizeOf_spec, Prod.mk.sizeOf_spec] at hle
        omega
      simp only [merge_pair, merge_manifests_in_order]
      have hstep : (merge_pair_key m1 key (alookup m1 key) v2 n1 n2 p).1 =
          (merge_key m1 key (alookup m1 key) v2 n1 n2 p).1 := by
        cases halo : alookup m1 key with
        | none => simp [merge_pair_key, merge_key]
        | some v1 =>
          cases v1 <;> cases v2 <;>
            simp only [merge_pair_key, merge_key]
          case dict.dict d1 d2 =>
            have hd2 : sizeOf d2 ≤ n := by
              simp only [List.cons.sizeOf_spec, Prod.mk.sizeOf_spec,
                MVal.dict.sizeOf_spec] at hle
              omega
            rw [ih d2 hd2]
      rw [hstep, ih rest hrest]

/-- C9: `merge_manifests_in_order` never mutates its secondary argument: in
the state-passing embedding `merge_pair` — which reconstructs the state of
the secondary manifest tree after the call while computing the same merged
primary as `merge_manifests_in_order` — the secondary comes back equal to
what it was before the call, at every nesting depth, for every pair of
manifest trees. -/
theorem merge_preserves_secondary :
    (∀ (m1 m2 : Manifest) (n1 n2 : String) (p : List String),
      (merge_pair m1 m2 n1 n2 p).2 = m2) ∧
    (∀ (m1 m2 : Manifest) (n1 n2 : String) (p : List String),
      (merge_pair m1 m2 n1 n2 p).1 = (merge_manifests_in_order m1 m2 n1 n2 p).1) :=
  ⟨fun m1 m2 n1 n2 p => merge_pair_snd_aux (sizeOf m2) m2 le_rfl m1 n1 n2 p,
    fun m1 m2 n1 n2 p => merge_pair_fst_aux (sizeOf m2) m2 le_rfl m1 n1 n2 p⟩

end Gsc
